import Mathlib

/-!
Verification of the model-lifecycle / streaming-generation coordinator of the
browser-ai-agent repository, as a shallow embedding in Lean.

The embedded code:
* `updateAssistant`       — src/App (both revisions): delta-append on the transcript.
* `runChunks004` etc.     — the `generate` callback flow of the multi-model hook
                            (src/unnamed/part_004) and of the single-model hook
                            (src/src/hooks/useLLM.ts).
* `stepPre`/`preloadModel` — `preloadModel` of the multi-model hook.
* `useModel`              — model activation of the multi-model hook.
* `loadModelPre`/`loadModelFinish` — `loadModel` of the single-model hook.
* `mapSet`/`report`/`runTicks` — the per-file download-progress aggregator.
-/

namespace BrowserAgent

/-- Message roles, from the `ChatMessage` type of the hooks. -/
inductive Role
  | sys
  | user
  | assistant
deriving DecidableEq

/-- `ChatMessage = { role, content }`. -/
structure Msg where
  role : Role
  content : String
deriving DecidableEq

/-! ## Chat transcript reducer (`updateAssistant` in src/App, both revisions)

```
const updateAssistant = (delta: string) => {
  if (!delta) return
  setMessages(prev => {
    const out = [...prev]
    let idx = out.length - 1
    while (idx >= 0 && out[idx].role !== "assistant") idx--
    if (idx >= 0) out[idx] = { ...out[idx], content: out[idx].content + delta }
    return out
  })
  ...
}
```
-/

/-- The backward scan `let idx = out.length - 1; while (idx >= 0 && role !== assistant) idx--`.
`scanBackAssistant l (i+1)` inspects index `i` and walks down. -/
def scanBackAssistant (l : List Msg) : Nat → Option Nat
  | 0 => none
  | i + 1 =>
    match l.get? i with
    | some m => if m.role = .assistant then some i else scanBackAssistant l i
    | none => scanBackAssistant l i

/-- Index found by the backward scan starting at `out.length - 1`. -/
def lastAssistantIdx (l : List Msg) : Option Nat :=
  scanBackAssistant l l.length

/-- The transcript update applied per delta (the `setMessages` reducer above,
including the `if (!delta) return` guard). -/
def updateAssistant (delta : String) (prev : List Msg) : List Msg :=
  if delta = "" then prev
  else
    match lastAssistantIdx prev with
    | none => prev
    | some i =>
      match prev.get? i with
      | some m => prev.set i { m with content := m.content ++ delta }
      | none => prev

/-- Specification-side characterisation of "the most recent message whose role is
assistant": index `i` holds an assistant message and no later index does. -/
def IsLastAssistantIdx (l : List Msg) (i : Nat) : Prop :=
  (∃ m, l.get? i = some m ∧ m.role = .assistant) ∧
    ∀ j m, i < j → l.get? j = some m → m.role ≠ .assistant

theorem scanBackAssistant_eq_some (l : List Msg) :
    ∀ n i, scanBackAssistant l n = some i →
      i < n ∧ (∃ m, l.get? i = some m ∧ m.role = .assistant) ∧
        ∀ j m, i < j → j < n → l.get? j = some m → m.role ≠ .assistant := by
  intro n
  induction n with
  | zero => intro i h; simp [scanBackAssistant] at h
  | succ k ih =>
    intro i h
    unfold scanBackAssistant at h
    cases hk : l.get? k with
    | some m =>
      rw [hk] at h
      by_cases hr : m.role = .assistant
      · simp [hr] at h
        subst h
        refine ⟨Nat.lt_succ_self k, ⟨m, hk, hr⟩, ?_⟩
        intro j m' hij hjk
        omega
      · simp [hr] at h
        obtain ⟨hin, hex, hafter⟩ := ih i h
        refine ⟨Nat.lt_succ_of_lt hin, hex, ?_⟩
        intro j m' hij hjk hget
        rcases Nat.lt_or_ge j k with hj | hj
        · exact hafter j m' hij hj hget
        · have : j = k := by omega
          subst this
          rw [hk] at hget
          cases hget
          exact hr
    | none =>
      rw [hk] at h
      obtain ⟨hin, hex, hafter⟩ := ih i h
      refine ⟨Nat.lt_succ_of_lt hin, hex, ?_⟩
      intro j m' hij hjk hget
      rcases Nat.lt_or_ge j k with hj | hj
      · exact hafter j m' hij hj hget
      · have : j = k := by omega
        subst this
        rw [hk] at hget
        cases hget

theorem scanBackAssistant_eq_none (l : List Msg) :
    ∀ n, scanBackAssistant l n = none →
      ∀ j m, j < n → l.get? j = some m → m.role ≠ .assistant := by
  intro n
  induction n with
  | zero => intro _ j m hj; omega
  | succ k ih =>
    intro h j m hj hget
    unfold scanBackAssistant at h
    cases hk : l.get? k with
    | some m' =>
      rw [hk] at h
      by_cases hr : m'.role = .assistant
      · simp [hr] at h
      · simp [hr] at h
        rcases Nat.lt_or_ge j k with hjk | hjk
        · exact ih h j m hjk hget
        · have : j = k := by omega
          subst this
          rw [hk] at hget
          injection hget with he
          subst he
          exact hr
    | none =>
      rw [hk] at h
      rcases Nat.lt_or_ge j k with hjk | hjk
      · exact ih h j m hjk hget
      · have : j = k := by omega
        subst this
        rw [hk] at hget
        exact absurd hget (by simp)

theorem lastAssistantIdx_isLast (l : List Msg) (i : Nat) (h : lastAssistantIdx l = some i) :
    IsLastAssistantIdx l i := by
  obtain ⟨hin, hex, hafter⟩ := scanBackAssistant_eq_some l l.length i h
  refine ⟨hex, ?_⟩
  intro j m hij hget
  have hj : j < l.length := (List.get?_eq_some.mp hget).1
  exact hafter j m hij hj hget

theorem isLast_lastAssistantIdx (l : List Msg) (i : Nat) (h : IsLastAssistantIdx l i) :
    lastAssistantIdx l = some i := by
  obtain ⟨⟨m, hget, hrole⟩, hafter⟩ := h
  cases hscan : lastAssistantIdx l with
  | none =>
    have hi : i < l.length := (List.get?_eq_some.mp hget).1
    exact absurd hrole (scanBackAssistant_eq_none l l.length hscan i m hi hget)
  | some i' =>
    obtain ⟨hin', ⟨m', hget', hrole'⟩, hafter'⟩ :=
      scanBackAssistant_eq_some l l.length i' hscan
    rcases Nat.lt_trichotomy i i' with hlt | heq | hgt
    · exact absurd hrole' (hafter i' m' hlt hget')
    · rw [heq]
    · have hi : i < l.length := (List.get?_eq_some.mp hget).1
      exact absurd hrole (hafter' i m hgt hi hget)

theorem list_set_of_get? {α : Type} :
    ∀ (l : List α) (i : Nat) (m : α), l.get? i = some m → l.set i m = l := by
  intro l
  induction l with
  | nil => intro i m h; exact absurd h (by simp)
  | cons a t ih =>
    intro i m h
    cases i with
    | zero =>
      have h' : some a = some m := h
      injection h' with h'
      show m :: t = a :: t
      rw [h']
    | succ k =>
      have h' : t.get? k = some m := h
      show a :: t.set k m = a :: t
      rw [ih k m h']

theorem list_get?_set_ne {α : Type} :
    ∀ (l : List α) (i j : Nat) (a : α), i ≠ j → (l.set i a).get? j = l.get? j := by
  intro l
  induction l with
  | nil => intro i j a _; cases i <;> rfl
  | cons b t ih =>
    intro i j a hne
    cases i with
    | zero =>
      cases j with
      | zero => exact absurd rfl hne
      | succ k => rfl
    | succ k =>
      cases j with
      | zero => rfl
      | succ k' =>
        show (t.set k a).get? k' = t.get? k'
        exact ih k k' a (by omega)

theorem list_get?_set_self {α : Type} :
    ∀ (l : List α) (i : Nat) (m a : α), l.get? i = some m → (l.set i a).get? i = some a := by
  intro l
  induction l with
  | nil => intro i m a h; exact absurd h (by simp)
  | cons b t ih =>
    intro i m a h
    cases i with
    | zero => rfl
    | succ k =>
      have h' : t.get? k = some m := h
      show (t.set k a).get? k = some a
      exact ih k m a h'

theorem string_append_empty (s : String) : s ++ "" = s := by
  apply congrArg String.mk
  exact List.append_nil s.data

/-- `DEFAULT_SYSTEM` from src/App (both revisions). -/
def defaultSystem : String :=
  "You are a helpful assistant. Keep responses concise when possible."

/-- Case split on what `updateAssistant` does: either it returns the transcript
unchanged, or it rewrites exactly the index found by the backward scan. -/
theorem updateAssistant_cases (delta : String) (prev : List Msg) :
    updateAssistant delta prev = prev ∨
      ∃ i m, lastAssistantIdx prev = some i ∧ prev.get? i = some m ∧
        updateAssistant delta prev = prev.set i { m with content := m.content ++ delta } := by
  by_cases hd : delta = ""
  · left; simp [updateAssistant, hd]
  · cases h : lastAssistantIdx prev with
    | none => left; simp [updateAssistant, hd, h]
    | some i =>
      cases hg : prev.get? i with
      | none =>
        left
        have hg2 : prev[i]? = none := by rw [← List.get?_eq_getElem?]; exact hg
        simp [updateAssistant, hd, h, hg2]
      | some m =>
        right
        refine ⟨i, m, rfl, hg, ?_⟩
        have hg2 : prev[i]? = some m := by rw [← List.get?_eq_getElem?]; exact hg
        simp [updateAssistant, hd, h, hg2]

/-- C7: the delta-append operation concatenates the delta onto the content of the
most recent assistant message (found scanning backward from the end of the
transcript), is a no-op when no assistant message exists, and folding the deltas
"Hi", " there", "!" into `[system, user:"hello", assistant:""]` yields the final
assistant content "Hi there!". -/
theorem claim_C7_delta_append :
    (∀ (prev : List Msg) (delta : String) (i : Nat) (m : Msg),
        IsLastAssistantIdx prev i → prev.get? i = some m →
        updateAssistant delta prev = prev.set i { m with content := m.content ++ delta })
    ∧ (∀ (prev : List Msg) (delta : String),
        (∀ m ∈ prev, m.role ≠ Role.assistant) → updateAssistant delta prev = prev)
    ∧ updateAssistant "!" (updateAssistant " there" (updateAssistant "Hi"
        [⟨.sys, defaultSystem⟩, ⟨.user, "hello"⟩, ⟨.assistant, ""⟩]))
      = [⟨.sys, defaultSystem⟩, ⟨.user, "hello"⟩, ⟨.assistant, "Hi there!"⟩] := by
  refine ⟨?_, ?_, ?_⟩
  · intro prev delta i m hlast hget
    have huniq := isLast_lastAssistantIdx prev i hlast
    by_cases hd : delta = ""
    · rw [hd, string_append_empty]
      have h1 : updateAssistant "" prev = prev := by simp [updateAssistant]
      rw [h1]
      exact (list_set_of_get? prev i m hget).symm
    · have hget2 : prev[i]? = some m := by rw [← List.get?_eq_getElem?]; exact hget
      simp [updateAssistant, hd, huniq, hget2]
  · intro prev delta hno
    have hnone : lastAssistantIdx prev = none := by
      cases h : lastAssistantIdx prev with
      | none => rfl
      | some i =>
        obtain ⟨_, ⟨m, hget, hrole⟩, _⟩ := scanBackAssistant_eq_some prev prev.length i h
        exact absurd hrole (hno m (List.get?_mem hget))
    simp [updateAssistant, hnone]
  · decide

/-- Witness for C7: the first delta of the scenario, applied through the theorem. -/
theorem claim_C7_delta_append_witness :
    updateAssistant "Hi" [⟨.sys, defaultSystem⟩, ⟨.user, "hello"⟩, ⟨.assistant, ""⟩]
      = ([⟨.sys, defaultSystem⟩, ⟨.user, "hello"⟩, ⟨.assistant, ""⟩] : List Msg).set 2
          { role := Role.assistant, content := "" ++ "Hi" } :=
  claim_C7_delta_append.1
    [⟨.sys, defaultSystem⟩, ⟨.user, "hello"⟩, ⟨.assistant, ""⟩] "Hi" 2 ⟨.assistant, ""⟩
    ⟨⟨⟨.assistant, ""⟩, rfl, rfl⟩, by
      intro j m hj hm
      have hlen : j < 3 := by simpa using (List.get?_eq_some.mp hm).1
      exact absurd hj (by omega)⟩
    rfl

/-- C9: the delta-append operation changes at most the content of the most recent
assistant message — transcript length, every role, and every other message are
unchanged — and the empty delta leaves the whole transcript unchanged. -/
theorem claim_C9_delta_append_frame :
    (∀ (prev : List Msg) (delta : String),
        (updateAssistant delta prev).length = prev.length)
    ∧ (∀ (prev : List Msg) (delta : String) (j : Nat),
        ((updateAssistant delta prev).get? j).map Msg.role = (prev.get? j).map Msg.role)
    ∧ (∀ (prev : List Msg) (delta : String) (j : Nat),
        ¬ IsLastAssistantIdx prev j →
        (updateAssistant delta prev).get? j = prev.get? j)
    ∧ (∀ prev : List Msg, updateAssistant "" prev = prev) := by
  refine ⟨?_, ?_, ?_, ?_⟩
  · intro prev delta
    rcases updateAssistant_cases delta prev with h | ⟨i, m, _, _, h⟩
    · rw [h]
    · rw [h, List.length_set]
  · intro prev delta j
    rcases updateAssistant_cases delta prev with h | ⟨i, m, _, hg, h⟩
    · rw [h]
    · rw [h]
      by_cases hij : i = j
      · subst hij
        rw [list_get?_set_self prev i m _ hg, hg]
        rfl
      · rw [list_get?_set_ne prev i j _ hij]
  · intro prev delta j hnot
    rcases updateAssistant_cases delta prev with h | ⟨i, m, hscan, hg, h⟩
    · rw [h]
    · rw [h]
      have hlast := lastAssistantIdx_isLast prev i hscan
      have hij : i ≠ j := by
        intro he
        exact hnot (he ▸ hlast)
      exact list_get?_set_ne prev i j _ hij
  · intro prev
    simp [updateAssistant]

/-- Witness for C9: the system message (index 0) is untouched by a delta. -/
theorem claim_C9_delta_append_frame_witness :
    (updateAssistant "Hi" [⟨.sys, defaultSystem⟩, ⟨.user, "hello"⟩, ⟨.assistant, ""⟩]).get? 0
      = ([⟨.sys, defaultSystem⟩, ⟨.user, "hello"⟩, ⟨.assistant, ""⟩] : List Msg).get? 0 :=
  claim_C9_delta_append_frame.2.2.1
    [⟨.sys, defaultSystem⟩, ⟨.user, "hello"⟩, ⟨.assistant, ""⟩] "Hi" 0 (by
      intro h
      exact h.2 2 ⟨.assistant, ""⟩ (by omega) rfl rfl)

/-! ## Streaming generation controller (`generate` in both hook revisions)

The underlying capability may deliver streamer chunks and an abort signal in any
interleaving, then settle (resolve with the aggregate output, or reject).  A run
is modelled as the list of those events followed by the outcome; the controller
produces an observable trace of `RunItem`s: forwarded deltas, the moment
cancellation was signaled, and the settlement callbacks.

Multi-model revision (src/unnamed/part_004), the relevant code:
```
const emit = (t: string) => {
  if (controller.signal.aborted) return
  if (!t) return
  sawAnyDelta = true
  opts.onDelta(t)
}
...
const output = await generator(history, { ..., streamer, signal })
if (!sawAnyDelta) {
  const last = Array.isArray(output) ? output[0]?.generated_text?.at(-1)?.content : undefined
  if (typeof last === "string" && last.length) opts.onDelta(last)
}
if (!controller.signal.aborted) opts.onDone()
} catch (e) { if (e?.name === "AbortError") return; opts.onError(e) }
```
The single-model revision (src/src/hooks/useLLM.ts) is identical except that its
`emit` has no `controller.signal.aborted` check.
-/

/-- An event arriving from the underlying capability during a run. -/
inductive StreamEvent
  | abortSignal
  | chunk (t : String)
deriving DecidableEq

def StreamEvent.isAbort : StreamEvent → Bool
  | .abortSignal => true
  | _ => false

/-- How the generator promise settles: resolve with `output[0]?.generated_text`
(`none` when the output is not an array or the path is undefined), or reject
(`isAbortError` tells whether `e?.name === "AbortError"`). -/
inductive RunOutcome
  | resolve (generatedText : Option (List Msg))
  | reject (isAbortError : Bool)
deriving DecidableEq

/-- Observable history of a run: the forwarded deltas, the instant cancellation
was signaled, and the settlement callbacks. -/
inductive RunItem
  | cancelMark
  | delta (t : String)
  | done
  | error
deriving DecidableEq

def RunItem.isDelta : RunItem → Bool
  | .delta _ => true
  | _ => false

/-- `true` for the caller-visible callbacks (`onDelta`, `onDone`, `onError`). -/
def RunItem.isCallback : RunItem → Bool
  | .cancelMark => false
  | _ => true

/-- `output[0]?.generated_text?.at(-1)?.content`. -/
def extractLast (gt : Option (List Msg)) : Option String :=
  gt.bind fun ms => ms.getLast?.map Msg.content

/-- The streamer phase of the multi-model `generate`: state is
(`controller.signal.aborted`, `sawAnyDelta`); `emit` drops chunks once aborted,
drops empty chunks, and otherwise forwards them. -/
def runChunks004 (aborted saw : Bool) : List StreamEvent → Bool × Bool × List RunItem
  | [] => (aborted, saw, [])
  | .abortSignal :: rest =>
    ((runChunks004 true saw rest).1, (runChunks004 true saw rest).2.1,
      .cancelMark :: (runChunks004 true saw rest).2.2)
  | .chunk t :: rest =>
    if aborted then runChunks004 aborted saw rest
    else if t = "" then runChunks004 aborted saw rest
    else
      ((runChunks004 aborted true rest).1, (runChunks004 aborted true rest).2.1,
        .delta t :: (runChunks004 aborted true rest).2.2)

/-- The fallback delta: `if (!sawAnyDelta) { ...; if (typeof last === "string" && last.length) opts.onDelta(last) }`. -/
def fallbackDelta (saw : Bool) (ext : Option String) : List RunItem :=
  if !saw then
    match ext with
    | some s => if s = "" then [] else [.delta s]
    | none => []
  else []

/-- Settlement, shared verbatim by both revisions: on resolve, the fallback
delta then `if (!controller.signal.aborted) opts.onDone()`; on reject,
`if (e?.name === "AbortError") return; opts.onError(e)`. -/
def settle (aborted saw : Bool) : RunOutcome → List RunItem
  | .resolve gt => fallbackDelta saw (extractLast gt) ++ (if !aborted then [.done] else [])
  | .reject isAbortError => if isAbortError then [] else [.error]

def streamTrace004 (events : List StreamEvent) : List RunItem :=
  (runChunks004 false false events).2.2

/-- Full observable trace of one multi-model `generate` run. -/
def generateRun004 (events : List StreamEvent) (outcome : RunOutcome) : List RunItem :=
  (runChunks004 false false events).2.2 ++
    settle (runChunks004 false false events).1 (runChunks004 false false events).2.1 outcome

/-- The streamer phase of the single-model `generate` (src/src/hooks/useLLM.ts):
its `emit` lacks the `controller.signal.aborted` check. -/
def runChunksSingle (aborted saw : Bool) : List StreamEvent → Bool × Bool × List RunItem
  | [] => (aborted, saw, [])
  | .abortSignal :: rest =>
    ((runChunksSingle true saw rest).1, (runChunksSingle true saw rest).2.1,
      .cancelMark :: (runChunksSingle true saw rest).2.2)
  | .chunk t :: rest =>
    if t = "" then runChunksSingle aborted saw rest
    else
      ((runChunksSingle aborted true rest).1, (runChunksSingle aborted true rest).2.1,
        .delta t :: (runChunksSingle aborted true rest).2.2)

/-- Full observable trace of one single-model `generate` run. -/
def generateRunSingle (events : List StreamEvent) (outcome : RunOutcome) : List RunItem :=
  (runChunksSingle false false events).2.2 ++
    settle (runChunksSingle false false events).1 (runChunksSingle false false events).2.1 outcome

def afterFirstCancel : List RunItem → List RunItem
  | [] => []
  | .cancelMark :: rest => rest
  | .delta _ :: rest => afterFirstCancel rest
  | .done :: rest => afterFirstCancel rest
  | .error :: rest => afterFirstCancel rest

/-- The cancellation law of the spec, as a predicate on a run trace: after the
first cancellation mark, no caller-visible callback appears. -/
def cancelClean (tr : List RunItem) : Bool :=
  (afterFirstCancel tr).all fun x => !x.isCallback

/-- Entry of the multi-model `generate`:
`const generator = activeRef.current; if (!generator) throw new Error("No model in use")`. -/
def generate004 (active : Option Nat) (events : List StreamEvent) (outcome : RunOutcome) :
    Except String (List RunItem) :=
  match active with
  | none => .error "No model in use"
  | some _ => .ok (generateRun004 events outcome)

theorem runChunks004_fst :
    ∀ (evs : List StreamEvent) (a s : Bool),
      (runChunks004 a s evs).1 = (a || evs.any StreamEvent.isAbort) := by
  intro evs
  induction evs with
  | nil => intro a s; simp [runChunks004]
  | cons e rest ih =>
    intro a s
    cases e with
    | abortSignal => simp [runChunks004, ih, StreamEvent.isAbort]
    | chunk t =>
      by_cases ha : a
      · simp [runChunks004, ha, ih, StreamEvent.isAbort]
      · by_cases ht : t = "" <;>
          simp [runChunks004, ha, ht, ih, StreamEvent.isAbort]

theorem runChunks004_cancelMark :
    ∀ (evs : List StreamEvent) (a s : Bool),
      (RunItem.cancelMark ∈ (runChunks004 a s evs).2.2) ↔ evs.any StreamEvent.isAbort = true := by
  intro evs
  induction evs with
  | nil => intro a s; simp [runChunks004]
  | cons e rest ih =>
    intro a s
    cases e with
    | abortSignal => simp [runChunks004, StreamEvent.isAbort]
    | chunk t =>
      by_cases ha : a
      · simp [runChunks004, ha, ih, StreamEvent.isAbort]
      · by_cases ht : t = "" <;>
          simp [runChunks004, ha, ht, ih, StreamEvent.isAbort]

theorem runChunks004_no_done :
    ∀ (evs : List StreamEvent) (a s : Bool), RunItem.done ∉ (runChunks004 a s evs).2.2 := by
  intro evs
  induction evs with
  | nil => intro a s; simp [runChunks004]
  | cons e rest ih =>
    intro a s
    cases e with
    | abortSignal =>
      simp [runChunks004]
      exact ih true s
    | chunk t =>
      by_cases ha : a
      · simp [runChunks004, ha, ih]
      · by_cases ht : t = "" <;> simp [runChunks004, ha, ht, ih]

theorem runChunks004_saw :
    ∀ (evs : List StreamEvent) (a s : Bool),
      (runChunks004 a s evs).2.1 = (s || (runChunks004 a s evs).2.2.any RunItem.isDelta) := by
  intro evs
  induction evs with
  | nil => intro a s; simp [runChunks004]
  | cons e rest ih =>
    intro a s
    cases e with
    | abortSignal => simp [runChunks004, ih, RunItem.isDelta]
    | chunk t =>
      by_cases ha : a
      · simp [runChunks004, ha, ih]
      · by_cases ht : t = ""
        · simp [runChunks004, ha, ht, ih]
        · simp [runChunks004, ha, ht, ih, RunItem.isDelta]

theorem runChunks004_aborted_all_marks :
    ∀ (evs : List StreamEvent) (s : Bool),
      ((runChunks004 true s evs).2.2).all (fun x => !x.isCallback) = true := by
  intro evs
  induction evs with
  | nil => intro s; simp [runChunks004]
  | cons e rest ih =>
    intro s
    cases e with
    | abortSignal => simpa [runChunks004, RunItem.isCallback] using ih s
    | chunk t => simp [runChunks004, ih]

theorem cancelClean_of_all :
    ∀ tr : List RunItem, tr.all (fun x => !x.isCallback) = true → cancelClean tr = true := by
  intro tr
  induction tr with
  | nil => intro _; rfl
  | cons x rest ih =>
    intro h
    rw [List.all_cons] at h
    have hx : (!x.isCallback) = true := by
      cases hb : (!x.isCallback) <;> simp [hb] at h ⊢
    have hrest : rest.all (fun x => !x.isCallback) = true := by
      cases hb : rest.all (fun x => !x.isCallback) <;> simp [hb] at h ⊢
    cases x with
    | cancelMark => simpa [cancelClean, afterFirstCancel] using hrest
    | delta t => simp [RunItem.isCallback] at hx
    | done => simp [RunItem.isCallback] at hx
    | error => simp [RunItem.isCallback] at hx

theorem runChunks004_cancelClean :
    ∀ (evs : List StreamEvent) (a s : Bool),
      cancelClean ((runChunks004 a s evs).2.2) = true := by
  intro evs
  induction evs with
  | nil => intro a s; rfl
  | cons e rest ih =>
    intro a s
    cases e with
    | abortSignal =>
      show cancelClean (.cancelMark :: (runChunks004 true s rest).2.2) = true
      show ((runChunks004 true s rest).2.2).all (fun x => !x.isCallback) = true
      exact runChunks004_aborted_all_marks rest s
    | chunk t =>
      by_cases ha : a
      · simpa [runChunks004, ha] using ih a s
      · by_cases ht : t = ""
        · simpa [runChunks004, ha, ht] using ih a s
        · have : cancelClean (.delta t :: (runChunks004 a true rest).2.2)
              = cancelClean ((runChunks004 a true rest).2.2) := rfl
          simpa [runChunks004, ha, ht, this] using ih a true

theorem fallbackDelta_mem (saw : Bool) (ext : Option String) (x : RunItem)
    (h : x ∈ fallbackDelta saw ext) : ∃ t, x = RunItem.delta t := by
  cases saw with
  | true => simp [fallbackDelta] at h
  | false =>
    cases ext with
    | none => simp [fallbackDelta] at h
    | some s =>
      by_cases hs : s = ""
      · simp [fallbackDelta, hs] at h
      · simp [fallbackDelta, hs] at h
        exact ⟨s, h⟩

theorem settle_no_cancelMark (a s : Bool) (oc : RunOutcome) :
    RunItem.cancelMark ∉ settle a s oc := by
  intro h
  cases oc with
  | resolve gt =>
    rcases List.mem_append.mp h with h | h
    · obtain ⟨t, ht⟩ := fallbackDelta_mem s (extractLast gt) _ h
      cases ht
    · cases a <;> simp [settle] at h
  | reject b => cases b <;> simp [settle] at h

theorem settle_aborted_no_done (s : Bool) (oc : RunOutcome) :
    RunItem.done ∉ settle true s oc := by
  intro h
  cases oc with
  | resolve gt =>
    rcases List.mem_append.mp h with h | h
    · obtain ⟨t, ht⟩ := fallbackDelta_mem s (extractLast gt) _ h
      cases ht
    · simp at h
  | reject b => cases b <;> simp [settle] at h

theorem runChunksSingle_fst :
    ∀ (evs : List StreamEvent) (a s : Bool),
      (runChunksSingle a s evs).1 = (a || evs.any StreamEvent.isAbort) := by
  intro evs
  induction evs with
  | nil => intro a s; simp [runChunksSingle]
  | cons e rest ih =>
    intro a s
    cases e with
    | abortSignal => simp [runChunksSingle, ih, StreamEvent.isAbort]
    | chunk t =>
      by_cases ht : t = "" <;>
        simp [runChunksSingle, ht, ih, StreamEvent.isAbort]

theorem runChunksSingle_cancelMark :
    ∀ (evs : List StreamEvent) (a s : Bool),
      (RunItem.cancelMark ∈ (runChunksSingle a s evs).2.2) ↔
        evs.any StreamEvent.isAbort = true := by
  intro evs
  induction evs with
  | nil => intro a s; simp [runChunksSingle]
  | cons e rest ih =>
    intro a s
    cases e with
    | abortSignal => simp [runChunksSingle, StreamEvent.isAbort]
    | chunk t =>
      by_cases ht : t = "" <;>
        simp [runChunksSingle, ht, ih, StreamEvent.isAbort]

theorem runChunksSingle_no_done :
    ∀ (evs : List StreamEvent) (a s : Bool), RunItem.done ∉ (runChunksSingle a s evs).2.2 := by
  intro evs
  induction evs with
  | nil => intro a s; simp [runChunksSingle]
  | cons e rest ih =>
    intro a s
    cases e with
    | abortSignal =>
      simp [runChunksSingle]
      exact ih true s
    | chunk t =>
      by_cases ht : t = "" <;> simp [runChunksSingle, ht, ih]

theorem no_abort_any (evs : List StreamEvent)
    (h : evs.all (fun e => !e.isAbort) = true) : evs.any StreamEvent.isAbort = false := by
  induction evs with
  | nil => rfl
  | cons e rest ih =>
    rw [List.all_cons] at h
    have he : (!e.isAbort) = true := by
      cases hb : (!e.isAbort) <;> simp [hb] at h ⊢
    have hrest : rest.all (fun e => !e.isAbort) = true := by
      cases hb : rest.all (fun e => !e.isAbort) <;> simp [hb] at h ⊢
    rw [List.any_cons, ih hrest]
    cases hb : e.isAbort
    · rfl
    · rw [hb] at he; simp at he

theorem streamTrace004_nil :
    ∀ (evs : List StreamEvent) (a s : Bool),
      evs.all (fun e => !e.isAbort) = true →
      ((runChunks004 a s evs).2.2).filter RunItem.isDelta = [] →
      (runChunks004 a s evs).2.2 = [] := by
  intro evs
  induction evs with
  | nil => intro a s _ _; rfl
  | cons e rest ih =>
    intro a s hall hfil
    rw [List.all_cons] at hall
    have hrest : rest.all (fun e => !e.isAbort) = true := by
      cases hb : rest.all (fun e => !e.isAbort) <;> simp [hb] at hall ⊢
    cases e with
    | abortSignal => simp [StreamEvent.isAbort] at hall
    | chunk t =>
      by_cases ha : a
      · rw [show runChunks004 a s (.chunk t :: rest) = runChunks004 a s rest by
          simp [runChunks004, ha]] at hfil ⊢
        exact ih a s hrest hfil
      · by_cases ht : t = ""
        · rw [show runChunks004 a s (.chunk t :: rest) = runChunks004 a s rest by
            simp [runChunks004, ha, ht]] at hfil ⊢
          exact ih a s hrest hfil
        · exfalso
          rw [show (runChunks004 a s (.chunk t :: rest)).2.2
              = .delta t :: (runChunks004 a true rest).2.2 by
            simp [runChunks004, ha, ht]] at hfil
          simp [RunItem.isDelta] at hfil

/-- C1 (counterexample): the claim "once cancellation has been signaled, no
further delta is forwarded to onDelta and neither onDone nor onError fires" is
false on the code at concrete inputs.  Multi-model revision: a run aborted
before it settles, resolving normally with content "x" and no prior delta,
still delivers the synthesized fallback delta (the `if (!sawAnyDelta)` path has
no abort check) — its trace is a delta after the cancellation mark.
Single-model revision: `emit` has no abort check, so a streamer chunk "y"
arriving after `abort()` is forwarded. -/
theorem claim_C1_cancellation_counterexample :
    cancelClean (generateRun004 [StreamEvent.abortSignal]
        (RunOutcome.resolve (some [⟨Role.assistant, "x"⟩]))) = false
    ∧ generateRun004 [StreamEvent.abortSignal]
        (RunOutcome.resolve (some [⟨Role.assistant, "x"⟩]))
      = [RunItem.cancelMark, RunItem.delta "x"]
    ∧ cancelClean (generateRunSingle [StreamEvent.abortSignal, StreamEvent.chunk "y"]
        (RunOutcome.reject true)) = false
    ∧ generateRunSingle [StreamEvent.abortSignal, StreamEvent.chunk "y"]
        (RunOutcome.reject true)
      = [RunItem.cancelMark, RunItem.delta "y"] := by
  decide

/-- C1 (amended): once cancellation has been signaled, the multi-model revision
forwards no further streamer delta to onDelta, and (in either revision) onDone
never fires for the cancelled run; cancellation does not suppress the
synthesized fallback delta, late streamer deltas of the single-model revision,
or onError for a non-abort rejection. -/
theorem claim_C1_cancellation_amended :
    (∀ events : List StreamEvent, cancelClean (streamTrace004 events) = true)
    ∧ (∀ (events : List StreamEvent) (outcome : RunOutcome),
        RunItem.cancelMark ∈ generateRun004 events outcome →
        RunItem.done ∉ generateRun004 events outcome)
    ∧ (∀ (events : List StreamEvent) (outcome : RunOutcome),
        RunItem.cancelMark ∈ generateRunSingle events outcome →
        RunItem.done ∉ generateRunSingle events outcome) := by
  refine ⟨?_, ?_, ?_⟩
  · intro events
    exact runChunks004_cancelClean events false false
  · intro events outcome hmem hdone
    have hany : events.any StreamEvent.isAbort = true := by
      rcases List.mem_append.mp hmem with h | h
      · exact (runChunks004_cancelMark events false false).mp h
      · exact absurd h (settle_no_cancelMark _ _ outcome)
    have hfst : (runChunks004 false false events).1 = true := by
      rw [runChunks004_fst, hany]
      rfl
    rcases List.mem_append.mp hdone with h | h
    · exact runChunks004_no_done events false false h
    · rw [hfst] at h
      exact settle_aborted_no_done _ outcome h
  · intro events outcome hmem hdone
    have hany : events.any StreamEvent.isAbort = true := by
      rcases List.mem_append.mp hmem with h | h
      · exact (runChunksSingle_cancelMark events false false).mp h
      · exact absurd h (settle_no_cancelMark _ _ outcome)
    have hfst : (runChunksSingle false false events).1 = true := by
      rw [runChunksSingle_fst, hany]
      rfl
    rcases List.mem_append.mp hdone with h | h
    · exact runChunksSingle_no_done events false false h
    · rw [hfst] at h
      exact settle_aborted_no_done _ outcome h

/-- Witness for the amended C1, at a concrete aborted run. -/
theorem claim_C1_cancellation_amended_witness :
    RunItem.done ∉ generateRun004 [StreamEvent.abortSignal] (RunOutcome.reject true) :=
  claim_C1_cancellation_amended.2.1 [StreamEvent.abortSignal] (RunOutcome.reject true)
    (by decide)

/-- The deltas forwarded during the streamer phase of a multi-model run. -/
def streamDeltas004 (events : List StreamEvent) : List RunItem :=
  (streamTrace004 events).filter RunItem.isDelta

/-- C2 (counterexample): the claim "a run completing normally with no delta
synthesizes exactly one delta equal to the extracted final content" fails when
the extracted content is the empty string: the run completes normally, no delta
was ever invoked, extraction yields `""`, yet the trace is just `[done]` — no
delta is synthesized (the code requires `last.length` to be truthy). -/
theorem claim_C2_fallback_counterexample :
    extractLast (some [⟨Role.assistant, ""⟩]) = some ""
    ∧ generateRun004 [] (RunOutcome.resolve (some [⟨Role.assistant, ""⟩])) = [RunItem.done]
    ∧ ¬ (generateRun004 [] (RunOutcome.resolve (some [⟨Role.assistant, ""⟩]))
          = [RunItem.delta "", RunItem.done]) := by
  decide

/-- C2 (amended): if a run completes normally (no cancellation) and no delta was
forwarded during streaming, then when the extracted final content is a nonempty
string `s` the controller synthesizes exactly one delta, equal to `s`, delivered
before onDone; when extraction yields nothing or the empty string, no delta is
synthesized and onDone fires alone. -/
theorem claim_C2_fallback_amended :
    (∀ (events : List StreamEvent) (gt : Option (List Msg)) (s : String),
        events.all (fun e => !e.isAbort) = true →
        streamDeltas004 events = [] →
        extractLast gt = some s → s ≠ "" →
        generateRun004 events (RunOutcome.resolve gt) = [RunItem.delta s, RunItem.done])
    ∧ (∀ (events : List StreamEvent) (gt : Option (List Msg)),
        events.all (fun e => !e.isAbort) = true →
        streamDeltas004 events = [] →
        (extractLast gt = none ∨ extractLast gt = some "") →
        generateRun004 events (RunOutcome.resolve gt) = [RunItem.done]) := by
  constructor
  · intro events gt s hall hdel hext hs
    have htr : (runChunks004 false false events).2.2 = [] :=
      streamTrace004_nil events false false hall hdel
    have hfst : (runChunks004 false false events).1 = false := by
      rw [runChunks004_fst, no_abort_any events hall]
      rfl
    have hsaw : (runChunks004 false false events).2.1 = false := by
      rw [runChunks004_saw, htr]
      rfl
    unfold generateRun004
    rw [htr, hfst, hsaw]
    simp [settle, fallbackDelta, hext, hs]
  · intro events gt hall hdel hext
    have htr : (runChunks004 false false events).2.2 = [] :=
      streamTrace004_nil events false false hall hdel
    have hfst : (runChunks004 false false events).1 = false := by
      rw [runChunks004_fst, no_abort_any events hall]
      rfl
    have hsaw : (runChunks004 false false events).2.1 = false := by
      rw [runChunks004_saw, htr]
      rfl
    unfold generateRun004
    rw [htr, hfst, hsaw]
    rcases hext with hext | hext <;> simp [settle, fallbackDelta, hext]

/-- Witness for the amended C2: a chunkless run resolving with content "Hello". -/
theorem claim_C2_fallback_amended_witness :
    generateRun004 [] (RunOutcome.resolve (some [⟨Role.assistant, "Hello"⟩]))
      = [RunItem.delta "Hello", RunItem.done] :=
  claim_C2_fallback_amended.1 [] (some [⟨Role.assistant, "Hello"⟩]) "Hello"
    rfl rfl rfl (by decide)

/-- C8: a generate call issued when no active generator exists fails with the
not-ready error ("No model in use") and produces no run: no generation is
started and no callback trace is returned. -/
theorem claim_C8_no_active_generator :
    (∀ (events : List StreamEvent) (outcome : RunOutcome),
        generate004 none events outcome = Except.error "No model in use")
    ∧ (∀ (events : List StreamEvent) (outcome : RunOutcome) (tr : List RunItem),
        generate004 none events outcome ≠ Except.ok tr) := by
  constructor
  · intro _ _; rfl
  · intro _ _ _ h
    exact Except.noConfusion h

/-! ## Preload and the generator cache (`preloadModel` in src/unnamed/part_004)

```
const preloadModel = async (id, preferred?, onProgress?) => {
  if (cacheRef.current.has(id)) return // already cached
  ...
  const generator = await pipeline("text-generation", id, { device: dev, progress_callback })
  cacheRef.current.set(id, generator)
}
```
There is no tracking of in-flight loads: the only guard is the cache-membership
check, and the cache is written only after the `await` resolves.  The
interleaving of several calls is modelled by a step relation: `call id` runs the
synchronous prefix up to the `await` (membership check, and, if absent, the
`pipeline(...)` invocation, logged in `instLog`); `complete id` / `fail id` are
one pending `pipeline` promise settling (`cacheRef.current.set(id, ...)` on
success, nothing on failure). -/

structure PreState where
  cache : List String
  pending : List String
  instLog : List String
deriving DecidableEq

inductive PreEvent
  | call (id : String)
  | complete (id : String)
  | fail (id : String)
deriving DecidableEq

def stepPre (st : PreState) : PreEvent → PreState
  | .call id =>
    if st.cache.contains id then st
    else { st with pending := st.pending ++ [id], instLog := st.instLog ++ [id] }
  | .complete id =>
    if st.pending.contains id then
      { st with pending := st.pending.erase id,
                cache := if st.cache.contains id then st.cache else st.cache ++ [id] }
    else st
  | .fail id =>
    if st.pending.contains id then { st with pending := st.pending.erase id } else st

def runPre (evs : List PreEvent) : PreState :=
  evs.foldl stepPre ⟨[], [], []⟩

/-- One sequential (un-interleaved) `preloadModel` call: given the cache and the
outcome the awaited `pipeline(...)` call would have, returns the new cache and
the result propagated to the caller. -/
def preloadModel (cache : List String) (id : String) (pipelineResult : Except String Unit) :
    List String × Except String Unit :=
  if cache.contains id then (cache, .ok ())
  else
    match pipelineResult with
    | .ok () => (cache ++ [id], .ok ())
    | .error e => (cache, .error e)

/-- C3 (counterexample): a duplicate `preload(id)` issued while the first
preload of `id` is still in flight (pending, not yet cached) is NOT a no-op: it
performs a second instantiation.  After `call "m1"`, "m1" is pending and not
cached, and a second `call "m1"` raises the instantiation count to 2. -/
theorem claim_C3_preload_idempotent_counterexample :
    (runPre [PreEvent.call "m1"]).pending.contains "m1" = true
    ∧ (runPre [PreEvent.call "m1"]).cache.contains "m1" = false
    ∧ (runPre [PreEvent.call "m1"]).instLog.count "m1" = 1
    ∧ (runPre [PreEvent.call "m1", PreEvent.call "m1"]).instLog.count "m1" = 2 := by
  decide

/-- C3 (amended): `preload(id)` when `id` is already cached is a no-op for the
duplicate caller — no additional instantiation call, state (hence the cache)
unchanged, and the call resolves; but a duplicate call issued while a preload
for `id` is merely in flight does trigger a second instantiation. -/
theorem claim_C3_preload_idempotent_amended :
    (∀ (st : PreState) (id : String),
        st.cache.contains id = true → stepPre st (.call id) = st)
    ∧ (∀ (cache : List String) (id : String) (r : Except String Unit),
        cache.contains id = true → preloadModel cache id r = (cache, .ok ())) := by
  constructor
  · intro st id h
    have h' : id ∈ st.cache := by simpa using h
    simp [stepPre, h']
  · intro cache id r h
    have h' : id ∈ cache := by simpa using h
    simp [preloadModel, h']

/-- Witness for the amended C3, with "m1" already cached. -/
theorem claim_C3_preload_idempotent_amended_witness :
    stepPre ⟨["m1"], [], ["m1"]⟩ (.call "m1") = (⟨["m1"], [], ["m1"]⟩ : PreState) :=
  claim_C3_preload_idempotent_amended.1 ⟨["m1"], [], ["m1"]⟩ "m1" (by decide)

/-- C4: if `preload(id)` fails with a capability error, the error propagates to
the caller and the cache is left with `id` fully absent (and in fact entirely
unchanged): the `cacheRef.current.set(id, generator)` after the `await` never
runs, and there is no partial write. -/
theorem claim_C4_preload_failure :
    ∀ (cache : List String) (id e : String),
      cache.contains id = false →
      preloadModel cache id (.error e) = (cache, .error e)
      ∧ (preloadModel cache id (.error e)).1.contains id = false := by
  intro cache id e h
  have h' : id ∉ cache := by simpa using h
  constructor
  · simp [preloadModel, h']
  · simp [preloadModel, h']

/-- Witness for C4 at the spec's Scenario D input. -/
theorem claim_C4_preload_failure_witness :
    preloadModel [] "bad-id" (.error "LoadFailure") = ([], .error "LoadFailure")
    ∧ (preloadModel [] "bad-id" (.error "LoadFailure")).1.contains "bad-id" = false :=
  claim_C4_preload_failure [] "bad-id" "LoadFailure" (by decide)

/-! ## Activation (`useModel` in src/unnamed/part_004)

```
const useModel = useCallback(async (id: string) => {
  const generator = cacheRef.current.get(id)
  if (!generator) throw new Error("Model not preloaded")
  // Stop any running gen
  abortRef.current?.abort()
  activeRef.current = generator
  setModelId(id)
  setReady(true)
}, [])
```
Generator handles are opaque and modelled as `Nat` tags.  The ordered list of
primitive mutations performed by the call is returned alongside the new state,
so that "cancels before the active reference changes" is expressible. -/

structure MultiState where
  cache : List (String × Nat)
  active : Option Nat
  modelId : String
  ready : Bool
deriving DecidableEq

def lookupCache (c : List (String × Nat)) (id : String) : Option Nat :=
  match c.find? (fun e => e.1 = id) with
  | some e => some e.2
  | none => none

inductive UseAction
  | abortCurrentRun
  | setActiveGen (g : Nat)
  | recordModelId (id : String)
  | setReadyTrue
deriving DecidableEq

/-- `useModel`: on a cached id it aborts the running generation, then swaps the
active reference, records the id and flips readiness; on an uncached id it
throws before performing any mutation. -/
def useModel (st : MultiState) (id : String) :
    MultiState × List UseAction × Except String Unit :=
  match lookupCache st.cache id with
  | none => (st, [], .error "Model not preloaded")
  | some g =>
    ({ st with active := some g, modelId := id, ready := true },
      [.abortCurrentRun, .setActiveGen g, .recordModelId id, .setReadyTrue],
      .ok ())

/-- C5: for a cached id, activation first cancels any in-flight generation
(`abortCurrentRun` precedes `setActiveGen` in the mutation list) and only then
sets the active reference to the cached handle, sets readiness true and records
the id; for an uncached id it fails and the state — in particular the active
reference — is unchanged. -/
theorem claim_C5_useModel :
    (∀ (st : MultiState) (id : String) (g : Nat),
        lookupCache st.cache id = some g →
        useModel st id =
          ({ st with active := some g, modelId := id, ready := true },
            [.abortCurrentRun, .setActiveGen g, .recordModelId id, .setReadyTrue],
            .ok ()))
    ∧ (∀ (st : MultiState) (id : String),
        lookupCache st.cache id = none →
        useModel st id = (st, [], .error "Model not preloaded")) := by
  constructor
  · intro st id g h
    simp [useModel, h]
  · intro st id h
    simp [useModel, h]

/-- Witness for C5: activating the cached id "m1" with handle 7. -/
theorem claim_C5_useModel_witness :
    useModel ⟨[("m1", 7)], none, "", false⟩ "m1" =
      (⟨[("m1", 7)], some 7, "m1", true⟩,
        [.abortCurrentRun, .setActiveGen 7, .recordModelId "m1", .setReadyTrue],
        .ok ()) :=
  claim_C5_useModel.1 ⟨[("m1", 7)], none, "", false⟩ "m1" 7 (by decide)

/-! ## Single-model `loadModel` (src/src/hooks/useLLM.ts)

```
const loadModel = useCallback(async (id, preferred?, onProgress?) => {
  abortRef.current?.abort()
  generatorRef.current = null
  setReady(false)
  setLoadingModel(true)
  try {
    const dev = preferred ?? detectDevice()
    setDevice(dev)
    setModelId(id)
    ...
    const generator = await pipeline("text-generation", id, { device: dev, progress_callback })
    generatorRef.current = generator
    setReady(true)
  } catch (e) {
    setReady(false)
    throw e
  } finally {
    setLoadingModel(false)
  }
}, [])
```
`loadModelPre` is the synchronous prefix up to the `await pipeline(...)`;
`loadModelFinish` is the resumption once the pipeline promise settles. -/

structure SingleState where
  generator : Option Nat
  ready : Bool
  loadingModel : Bool
  modelId : String
  device : String
  runAbortSignaled : Bool
deriving DecidableEq

def loadModelPre (st : SingleState) (id dev : String) : SingleState :=
  { st with runAbortSignaled := true, generator := none, ready := false,
            loadingModel := true, device := dev, modelId := id }

def loadModelFinish (st : SingleState) (res : Except String Nat) :
    SingleState × Except String Unit :=
  match res with
  | .ok g => ({ st with generator := some g, ready := true, loadingModel := false }, .ok ())
  | .error e => ({ st with ready := false, loadingModel := false }, .error e)

def loadModel (st : SingleState) (id dev : String) (res : Except String Nat) :
    SingleState × Except String Unit :=
  loadModelFinish (loadModelPre st id dev) res

/-- C10: every `loadModel` call clears the active generator and sets readiness
false before attempting the new load (the state at the `pipeline` call already
has `generator = none`, `ready = false`); hence when the load fails no model is
active afterward — the generator reference is still null and readiness false —
even if a model was active before, and the error propagates. -/
theorem claim_C10_loadModel_clears_before_load :
    (∀ (st : SingleState) (id dev : String),
        (loadModelPre st id dev).generator = none ∧ (loadModelPre st id dev).ready = false)
    ∧ (∀ (st : SingleState) (id dev e : String),
        (loadModel st id dev (.error e)).1.generator = none
        ∧ (loadModel st id dev (.error e)).1.ready = false
        ∧ (loadModel st id dev (.error e)).2 = .error e) := by
  constructor
  · intro st id dev
    exact ⟨rfl, rfl⟩
  · intro st id dev e
    exact ⟨rfl, rfl, rfl⟩

/-! ## Progress aggregator (inside `preloadModel` / `loadModel`, both revisions)

```
const fileProgress = new Map<string, { loaded: number; total: number }>()
const report = () => {
  if (!onProgress) return
  let loadedBytes = 0
  let totalBytes = 0
  for (const { loaded, total } of fileProgress.values()) {
    loadedBytes += loaded || 0
    totalBytes += total || 0
  }
  const percent = totalBytes > 0 ? Math.max(0, Math.min(100, (loadedBytes / totalBytes) * 100)) : 0
  onProgress({ modelId: id, loadedBytes, totalBytes, percent })
}
const progress_callback = (info: any) => {
  const key = info?.file || info?.url || info?.name || ...
  fileProgress.set(key, { loaded: Number(info?.loaded ?? 0), total: Number(info?.total ?? 0) })
  report()
}
```
A tick is the resolved `(key, loaded, total)` triple; numbers are modelled as
`ℚ` (exact arithmetic, no NaN, so `loaded || 0` is the identity here).
`mapSet` is JS `Map.set`: update in place if the key exists (iteration order is
insertion order), else append. -/

structure Tick where
  key : String
  loaded : ℚ
  total : ℚ
deriving DecidableEq

structure LoadProgress where
  modelId : String
  loadedBytes : ℚ
  totalBytes : ℚ
  percent : ℚ
deriving DecidableEq

abbrev FileEntry := String × ℚ × ℚ

def mapSet (m : List FileEntry) (k : String) (v : ℚ × ℚ) : List FileEntry :=
  if ∃ e ∈ m, e.1 = k then m.map (fun e => if e.1 = k then (k, v) else e)
  else m ++ [(k, v)]

/-- The `report()` closure: sums over the current per-file map, then the
clamped-percentage formula. -/
def report (id : String) (m : List FileEntry) : LoadProgress :=
  { modelId := id
    loadedBytes := (m.map (fun e => e.2.1)).sum
    totalBytes := (m.map (fun e => e.2.2)).sum
    percent :=
      if (m.map (fun e => e.2.2)).sum > 0 then
        max 0 (min 100 ((m.map (fun e => e.2.1)).sum / (m.map (fun e => e.2.2)).sum * 100))
      else 0 }

/-- `progress_callback` per tick: `fileProgress.set(key, {loaded, total}); report()`. -/
def runTicksAux (id : String) (m : List FileEntry) : List Tick → List LoadProgress
  | [] => []
  | t :: rest =>
    report id (mapSet m t.key (t.loaded, t.total)) ::
      runTicksAux id (mapSet m t.key (t.loaded, t.total)) rest

/-- The emitted snapshot sequence of one load, starting from the empty map. -/
def runTicks (id : String) (ts : List Tick) : List LoadProgress :=
  runTicksAux id [] ts

def mapAfter (ts : List Tick) : List FileEntry :=
  ts.foldl (fun m t => mapSet m t.key (t.loaded, t.total)) []

/-- Spec-side: the distinct file keys of a tick sequence, in first-report order. -/
def specDistinctKeys (ts : List Tick) : List String :=
  ts.foldl (fun acc t => if t.key ∈ acc then acc else acc ++ [t.key]) []

/-- Spec-side: the last-reported `(loaded, total)` for file key `k`. -/
def specLastFor (ts : List Tick) (k : String) : ℚ × ℚ :=
  match (ts.filter (fun t => t.key == k)).getLast? with
  | some t => (t.loaded, t.total)
  | none => (0, 0)

def specEntries (ts : List Tick) : List FileEntry :=
  (specDistinctKeys ts).map (fun k => (k, specLastFor ts k))

/-- Independent spec-side recomputation of a snapshot from the whole tick
prefix: `loadedBytes`/`totalBytes` are the sums over all file keys of the last
reported values, and `percent = totalBytes > 0 ? clamp(loadedBytes/totalBytes*100, 0, 100) : 0`. -/
def aggregateSpec (id : String) (ts : List Tick) : LoadProgress :=
  { modelId := id
    loadedBytes := ((specDistinctKeys ts).map (fun k => (specLastFor ts k).1)).sum
    totalBytes := ((specDistinctKeys ts).map (fun k => (specLastFor ts k).2)).sum
    percent :=
      if ((specDistinctKeys ts).map (fun k => (specLastFor ts k).2)).sum > 0 then
        max 0 (min 100 (((specDistinctKeys ts).map (fun k => (specLastFor ts k).1)).sum /
          ((specDistinctKeys ts).map (fun k => (specLastFor ts k).2)).sum * 100))
      else 0 }

theorem specDistinctKeys_append (ts : List Tick) (t : Tick) :
    specDistinctKeys (ts ++ [t]) =
      if t.key ∈ specDistinctKeys ts then specDistinctKeys ts
      else specDistinctKeys ts ++ [t.key] := by
  unfold specDistinctKeys
  rw [List.foldl_append]
  rfl

theorem specLastFor_append (ts : List Tick) (t : Tick) (k : String) :
    specLastFor (ts ++ [t]) k =
      if t.key = k then (t.loaded, t.total) else specLastFor ts k := by
  unfold specLastFor
  rw [List.filter_append]
  by_cases hk : t.key = k
  · simp [hk, List.getLast?_concat]
  · simp [hk]

theorem mapAfter_append (ts : List Tick) (t : Tick) :
    mapAfter (ts ++ [t]) = mapSet (mapAfter ts) t.key (t.loaded, t.total) := by
  unfold mapAfter
  rw [List.foldl_append]
  rfl

theorem specDistinctKeys_mem (ts : List Tick) (k : String) :
    k ∈ specDistinctKeys ts ↔ ∃ t ∈ ts, t.key = k := by
  induction ts using List.reverseRecOn with
  | nil => simp [specDistinctKeys]
  | append_singleton ts t ih =>
    rw [specDistinctKeys_append]
    by_cases h : t.key ∈ specDistinctKeys ts
    · rw [if_pos h]
      constructor
      · intro hk
        obtain ⟨t', ht', hk'⟩ := ih.mp hk
        exact ⟨t', List.mem_append_left _ ht', hk'⟩
      · intro ⟨t', ht', hk'⟩
        rcases List.mem_append.mp ht' with h' | h'
        · exact ih.mpr ⟨t', h', hk'⟩
        · have : t' = t := by simpa using h'
          subst this
          subst hk'
          exact h
    · rw [if_neg h]
      rw [List.mem_append]
      constructor
      · intro hk
        rcases hk with hk | hk
        · obtain ⟨t', ht', hk'⟩ := ih.mp hk
          exact ⟨t', List.mem_append_left _ ht', hk'⟩
        · have : k = t.key := by simpa using hk
          exact ⟨t, List.mem_append_right _ (by simp), this.symm⟩
      · intro ⟨t', ht', hk'⟩
        rcases List.mem_append.mp ht' with h' | h'
        · exact Or.inl (ih.mpr ⟨t', h', hk'⟩)
        · have : t' = t := by simpa using h'
          subst this
          subst hk'
          simp

theorem mapAfter_eq_specEntries (ts : List Tick) : mapAfter ts = specEntries ts := by
  induction ts using List.reverseRecOn with
  | nil => rfl
  | append_singleton ts t ih =>
    rw [mapAfter_append, ih]
    have hcond : (∃ e ∈ specEntries ts, e.1 = t.key) ↔ t.key ∈ specDistinctKeys ts := by
      simp [specEntries]
    by_cases h : t.key ∈ specDistinctKeys ts
    · have hrhs : specEntries (ts ++ [t])
          = (specDistinctKeys ts).map (fun k => (k, specLastFor (ts ++ [t]) k)) := by
        rw [specEntries, specDistinctKeys_append, if_pos h]
      rw [mapSet, if_pos (hcond.mpr h), hrhs, specEntries, List.map_map]
      apply List.map_congr_left
      intro k _
      simp only [Function.comp]
      rw [specLastFor_append]
      by_cases hk : k = t.key
      · subst hk
        simp
      · have h2 : ¬ t.key = k := fun he => hk he.symm
        simp [hk, h2]
    · have hrhs : specEntries (ts ++ [t])
          = (specDistinctKeys ts).map (fun k => (k, specLastFor (ts ++ [t]) k))
            ++ [(t.key, specLastFor (ts ++ [t]) t.key)] := by
        rw [specEntries, specDistinctKeys_append, if_neg h, List.map_append]
        rfl
      rw [mapSet, if_neg (fun hc => h (hcond.mp hc)), hrhs]
      congr 1
      · rw [specEntries]
        apply List.map_congr_left
        intro k hk
        rw [specLastFor_append]
        have hne : ¬ t.key = k := fun he => h (he ▸ hk)
        rw [if_neg hne]
      · rw [specLastFor_append, if_pos rfl]

theorem report_specEntries (id : String) (ts : List Tick) :
    report id (specEntries ts) = aggregateSpec id ts := by
  simp only [report, aggregateSpec, specEntries, List.map_map]
  exact rfl

theorem runTicksAux_get (id : String) :
    ∀ (ts : List Tick) (m : List FileEntry) (i : Nat) (p : LoadProgress),
      (runTicksAux id m ts).get? i = some p →
      p = report id ((ts.take (i + 1)).foldl (fun m t => mapSet m t.key (t.loaded, t.total)) m) := by
  intro ts
  induction ts with
  | nil => intro m i p h; exact absurd h (by simp [runTicksAux])
  | cons t rest ih =>
    intro m i p h
    cases i with
    | zero =>
      have h' : some (report id (mapSet m t.key (t.loaded, t.total))) = some p := h
      injection h' with h'
      rw [← h']
      rfl
    | succ i =>
      have h' : (runTicksAux id (mapSet m t.key (t.loaded, t.total)) rest).get? i = some p := h
      rw [ih (mapSet m t.key (t.loaded, t.total)) i p h']
      rfl

/-- C6: every snapshot the aggregator emits is the spec-side recomputation from
the tick prefix seen so far — `loadedBytes`/`totalBytes` are the sums of the
last-reported `loaded`/`total` over all file keys, and
`percent = totalBytes > 0 ? clamp(loadedBytes/totalBytes*100, 0, 100) : 0`;
in particular the ticks `{loaded:50,total:200}` then `{loaded:200,total:200}`
on one key yield the percent sequence `25, 100`. -/
theorem claim_C6_progress_aggregation :
    (∀ (id : String) (ts : List Tick) (i : Nat) (p : LoadProgress),
        (runTicks id ts).get? i = some p → p = aggregateSpec id (ts.take (i + 1)))
    ∧ (runTicks "m1" [⟨"f", 50, 200⟩, ⟨"f", 200, 200⟩]).map LoadProgress.percent
        = [25, 100] := by
  constructor
  · intro id ts i p h
    rw [runTicksAux_get id ts [] i p h]
    rw [show (ts.take (i + 1)).foldl (fun m t => mapSet m t.key (t.loaded, t.total)) []
        = mapAfter (ts.take (i + 1)) from rfl]
    rw [mapAfter_eq_specEntries, report_specEntries]
  · norm_num [runTicks, runTicksAux, mapSet, report, min_def, max_def]

/-- Witness for C6: the first snapshot of the scenario, through the theorem. -/
theorem claim_C6_progress_aggregation_witness :
    (⟨"m1", 50, 200, 25⟩ : LoadProgress)
      = aggregateSpec "m1" ([⟨"f", 50, 200⟩, ⟨"f", 200, 200⟩].take 1) :=
  claim_C6_progress_aggregation.1 "m1" [⟨"f", 50, 200⟩, ⟨"f", 200, 200⟩] 0
    ⟨"m1", 50, 200, 25⟩ (by
      norm_num [runTicks, runTicksAux, mapSet, report, min_def, max_def, LoadProgress.mk.injEq])

/-- Witness for C8 at a concrete run. -/
theorem claim_C8_no_active_generator_witness :
    generate004 none [] (RunOutcome.reject true) = Except.error "No model in use" :=
  claim_C8_no_active_generator.1 [] (RunOutcome.reject true)
